import Mathlib

/-
Verification development for the embedded-hal-vcd crate.

The repository contains two historical variants of the same library:
the module files `pins.rs`, `reader.rs`, `writer.rs` (current layout) and a
flattened `lib.rs` (older layout).  Where the two variants agree, one Lean
definition embeds both; where they differ, the `lib.rs` variant is embedded
under a `Lib`-prefixed name.

Modelling conventions:
  * `Arc<AtomicPinState>` cells are a heap `Cells := List PinState`, a handle
    is the index of its cell; the `AtomicUsize` payload encoding (discriminants
    1/2/3 via to_usize/from_usize) is embedded separately and shown to
    round-trip, so cells store `PinState` directly.
  * Sequentially-consistent atomic store/load on a cell becomes pure state
    passing (the code under verification is the single-threaded decode/encode
    algorithms; cross-thread interleavings are outside the embedding).
  * The external `vcd` crate parser is modelled as a parse outcome (header or
    error) plus the list of body commands; its writer as an output list of
    emitted lines with identifier codes assigned sequentially from 0.
  * u64 arithmetic is embedded as Nat; no claim involves values near 2^64,
    so wrap-around is not modelled.
-/

/-- Pin state enumeration from `pins.rs` / `lib.rs`: High = 1, Low = 2,
Floating = 3 (the discriminants used by the atomic encoding). -/
inductive PinState
  | High
  | Low
  | Floating
deriving DecidableEq, Repr

/-- Discriminant encoding used by `AtomicPinState` (via `to_usize`). -/
def PinState.toUsize : PinState → Nat
  | .High => 1
  | .Low => 2
  | .Floating => 3

/-- Inverse decoding used by `AtomicPinState::load` (via `from_usize`). -/
def PinState.fromUsize : Nat → Option PinState
  | 1 => some .High
  | 2 => some .Low
  | 3 => some .Floating
  | _ => none

/-- The four-valued VCD scalar from the external `vcd` crate. -/
inductive VcdValue
  | V0
  | V1
  | Z
  | X
deriving DecidableEq, Repr

/-- Embeds `impl From<vcd::Value> for PinState` (identical in `pins.rs` and
`lib.rs`). -/
def pinStateOfValue : VcdValue → PinState
  | .V0 => .Low
  | .V1 => .High
  | .Z => .Floating
  | .X => .Floating

/-- Embeds `impl From<PinState> for vcd::Value` (identical in `pins.rs` and
`lib.rs`). -/
def valueOfPinState : PinState → VcdValue
  | .High => .V1
  | .Low => .V0
  | .Floating => .Z

/-
Pin handle operations from `pins.rs` (and `lib.rs`).  Every handle wraps an
`Arc<AtomicPinState>`; here the shared cell's current `PinState` is the
argument, a SeqCst store returns the new cell content, a SeqCst load reads it.
All these methods return `Result<_, Infallible>`, i.e. they never fail, so the
`Ok` wrapper is dropped.
-/

/-- `InputPin::try_is_high` from `pins.rs`/`lib.rs`. -/
def InputPinOps.try_is_high (s : PinState) : Bool := s == .High

/-- `InputPin::try_is_low` from `pins.rs`/`lib.rs`. -/
def InputPinOps.try_is_low (s : PinState) : Bool := s == .Low

/-- `PushPullPin::try_set_high`: stores `PinState::High`. -/
def PushPullPin.try_set_high (_ : PinState) : PinState := .High

/-- `PushPullPin::try_set_low`: stores `PinState::Low`. -/
def PushPullPin.try_set_low (_ : PinState) : PinState := .Low

/-- `PushPullPin::try_is_high` (InputPin impl). -/
def PushPullPin.try_is_high (s : PinState) : Bool := s == .High

/-- `PushPullPin::try_is_low` (InputPin impl). -/
def PushPullPin.try_is_low (s : PinState) : Bool := s == .Low

/-- `PushPullPin::try_is_set_high` (StatefulOutputPin impl, `pins.rs`). -/
def PushPullPin.try_is_set_high (s : PinState) : Bool := s == .High

/-- `PushPullPin::try_is_set_low` (StatefulOutputPin impl, `pins.rs`). -/
def PushPullPin.try_is_set_low (s : PinState) : Bool := s == .Low

/-- `OpenDrainPin::try_set_high` from `pins.rs`: stores `PinState::Low`. -/
def OpenDrainPin.try_set_high (_ : PinState) : PinState := .Low

/-- `OpenDrainPin::try_set_low` from `pins.rs`: stores `PinState::Floating`. -/
def OpenDrainPin.try_set_low (_ : PinState) : PinState := .Floating

/-- `OpenDrainPin::try_is_high` (InputPin impl, `pins.rs`). -/
def OpenDrainPin.try_is_high (s : PinState) : Bool := s == .High

/-- `OpenDrainPin::try_is_low` (InputPin impl, `pins.rs`). -/
def OpenDrainPin.try_is_low (s : PinState) : Bool := s == .Low

/-- `OpenDrainPin::try_is_set_high` (StatefulOutputPin impl, `pins.rs`). -/
def OpenDrainPin.try_is_set_high (s : PinState) : Bool := s == .Low

/-- `OpenDrainPin::try_is_set_low` (StatefulOutputPin impl, `pins.rs`). -/
def OpenDrainPin.try_is_set_low (s : PinState) : Bool := s == .Floating

/-- `OpenGainPin::try_set_high` from `lib.rs`: stores `PinState::Low`. -/
def OpenGainPin.try_set_high (_ : PinState) : PinState := .Low

/-- `OpenGainPin::try_set_low` from `lib.rs`: stores `PinState::Floating`. -/
def OpenGainPin.try_set_low (_ : PinState) : PinState := .Floating

/-- `OpenGainPin::try_is_high` (InputPin impl, `lib.rs`). -/
def OpenGainPin.try_is_high (s : PinState) : Bool := s == .High

/-- `OpenGainPin::try_is_low` (InputPin impl, `lib.rs`). -/
def OpenGainPin.try_is_low (s : PinState) : Bool := s == .Low

/-
Shared-cell heap.  A cell index stands for one `Arc<AtomicPinState>`; a fresh
`Arc::new(...)` appends to the heap.
-/

/-- Identifier codes (`vcd::IdCode`) are embedded as naturals. -/
abbrev IdCode := Nat

/-- Cell references: the heap index of one `Arc<AtomicPinState>`. -/
abbrev CellId := Nat

/-- SeqCst load of a cell from the heap. -/
def cellLoad (cells : List PinState) (c : CellId) : PinState :=
  cells.getD c PinState.Floating

/-- SeqCst store to a cell of the heap. -/
def cellStore (cells : List PinState) (c : CellId) (s : PinState) :
    List PinState :=
  cells.set c s

/-- Lookup in the identifier-to-cell map (`FnvHashMap::get`). -/
def pinsLookup : List (IdCode × CellId) → IdCode → Option CellId
  | [], _ => none
  | (k, c) :: rest, i => if k = i then some c else pinsLookup rest i

/-- Insert into the identifier-to-cell map (`FnvHashMap::insert`): the new
binding replaces any existing binding of the same key. -/
def pinsInsert (m : List (IdCode × CellId)) (i : IdCode) (c : CellId) :
    List (IdCode × CellId) :=
  (i, c) :: m.filter (fun p => p.1 != i)

/-
Header model of the external `vcd` crate, as used through `header.timescale`
and `header.find_var`.
-/

/-- Time units of a VCD `$timescale` declaration (`vcd::TimescaleUnit`). -/
inductive TimescaleUnit
  | S
  | MS
  | US
  | NS
  | PS
  | FS
deriving DecidableEq, Repr

/-- `vcd::TimescaleUnit::divisor`: how many of this unit make one second. -/
def TimescaleUnit.divisor : TimescaleUnit → Nat
  | .S => 1
  | .MS => 1000
  | .US => 1000000
  | .NS => 1000000000
  | .PS => 1000000000000
  | .FS => 1000000000000000

/-- A declared variable of the header: its scope path and identifier code. -/
structure VcdVar where
  path : List String
  code : IdCode
deriving DecidableEq, Repr

/-- The parsed VCD header (`vcd::Header`), restricted to the fields the
crate reads: the timescale pair and the declared variables. -/
structure VcdHeader where
  timescale : Option (Nat × TimescaleUnit)
  vars : List VcdVar
deriving DecidableEq, Repr

/-- `vcd::Header::find_var`: path-based lookup of a declared variable. -/
def VcdHeader.find_var (h : VcdHeader) (path : List String) : Option VcdVar :=
  h.vars.find? (fun v => v.path == path)

/-- `embedded_time::duration::Generic<u64>`: an integer tick count together
with a scaling `Fraction` (numerator `num`, denominator `den`). -/
structure Generic where
  integer : Nat
  num : Nat
  den : Nat
deriving DecidableEq, Repr

/-- The duration a `Generic` denotes, in seconds, as an exact rational. -/
def Generic.toSecondsRat (g : Generic) : ℚ :=
  (g.integer : ℚ) * g.num / g.den

/-- Body commands of the VCD stream as consumed by `VcdReader::next`:
timestamp markers, scalar changes, and everything the decoder ignores
(vector changes, comments, unsupported tokens) collapsed into `other`. -/
inductive VcdCommand
  | timestamp (t : Nat)
  | changeScalar (i : IdCode) (v : VcdValue)
  | other
deriving DecidableEq, Repr

/-- Decoder state (`VcdReader` of `reader.rs`/`lib.rs`): the remaining body
commands of the parser, the resolved scale, the parsed header, the
identifier-to-cell registrations and the shared-cell heap. -/
structure VcdReader where
  commands : List VcdCommand
  scale : Generic
  header : VcdHeader
  pins : List (IdCode × CellId)
  cells : List PinState
deriving DecidableEq, Repr

/-- `VcdReader::timescale_to_duration`:
`Generic::new(scale as u64, Fraction::new(1, unit.divisor() as u32))`.
The `vcd` crate's `divisor()` returns u64 and the `as u32` cast truncates it
modulo 2^32, so for the `ps` and `fs` units the denominator wraps. -/
def timescale_to_duration (h : VcdHeader) : Option Generic :=
  match h.timescale with
  | some (scale, unit) => some ⟨scale, 1, unit.divisor % 2 ^ 32⟩
  | none => none

/-- Errors a `VcdReader::new` call can return: the `std::io::Error` of the
underlying byte source or header parse.  `missingTimescale` is modelled from
the spec (the spec names a `MissingTimescale` error kind); the code never
constructs it. -/
inductive VcdError
  | io
  | missingTimescale
deriving DecidableEq, Repr

/-- Outcome of `VcdReader::new`: a reader, a returned error, or a panic
(abnormal termination that returns nothing to the caller). -/
inductive NewResult
  | ok (r : VcdReader)
  | err (e : VcdError)
  | panicked
deriving DecidableEq, Repr

/-- Whether a `NewResult` is an error value returned to the caller. -/
def NewResult.isErrorReturn : NewResult → Bool
  | .err _ => true
  | _ => false

/-- `VcdReader::new` from `reader.rs`/`lib.rs`.  The external
`vcd::Parser::parse_header` outcome is the `parsed` argument and the body
commands the parser will subsequently yield are `cmds`.  On a parse error the
`?` operator returns it; otherwise `timescale_to_duration(&header).unwrap()`
panics when the header has no timescale. -/
def VcdReader.new (parsed : Except VcdError VcdHeader)
    (cmds : List VcdCommand) : NewResult :=
  match parsed with
  | .error e => .err e
  | .ok header =>
    match timescale_to_duration header with
    | none => .panicked
    | some scale => .ok ⟨cmds, scale, header, [], []⟩

/-- The read-only pin handle returned by `VcdReader::get_pin`: it wraps one
shared cell. -/
structure InputPin where
  cell : CellId
deriving DecidableEq, Repr

/-- `InputPin::try_is_high` read through the heap. -/
def InputPin.read_is_high (cells : List PinState) (p : InputPin) : Bool :=
  cellLoad cells p.cell == .High

/-- `InputPin::try_is_low` read through the heap. -/
def InputPin.read_is_low (cells : List PinState) (p : InputPin) : Bool :=
  cellLoad cells p.cell == .Low

/-- `VcdReader::get_pin` from `reader.rs`/`lib.rs`: look the path up in the
header; on a hit allocate a fresh Floating cell, record the
identifier-to-cell binding (replacing any previous one) and return the
handle; on a miss return `none` with the reader untouched. -/
def VcdReader.get_pin (r : VcdReader) (path : List String) :
    Option InputPin × VcdReader :=
  match r.header.find_var path with
  | some v =>
    let c := r.cells.length
    (some ⟨c⟩,
      { r with
        cells := r.cells ++ [PinState.Floating]
        pins := pinsInsert r.pins v.code c })
  | none => (none, r)

/-- The scan loop of `VcdReader::next`: consume commands, applying registered
scalar changes, until a timestamp marker or the end of input.  Returns the
yielded timestamp (if any), the remaining commands and the updated heap. -/
def nextLoop : List VcdCommand → Generic → List (IdCode × CellId) →
    List PinState → Option Generic × List VcdCommand × List PinState
  | [], _, _, cells => (none, [], cells)
  | .timestamp t :: rest, scale, _, cells =>
    (some ⟨scale.integer * t, scale.num, scale.den⟩, rest, cells)
  | .changeScalar i v :: rest, scale, pins, cells =>
    nextLoop rest scale pins
      (match pinsLookup pins i with
       | some c => cellStore cells c (pinStateOfValue v)
       | none => cells)
  | .other :: rest, scale, pins, cells => nextLoop rest scale pins cells

/-- `Iterator::next` for `VcdReader` (`reader.rs`/`lib.rs`). -/
def VcdReader.next (r : VcdReader) : Option Generic × VcdReader :=
  let (ts, rest, cells) := nextLoop r.commands r.scale r.pins r.cells
  (ts, { r with commands := rest, cells := cells })

/-
Specification-level decomposition of one `next` step, written from the spec's
words: split the command stream at the first timestamp marker and apply the
registered changes of the prefix.
-/

/-- Split a command list at its first timestamp marker: the prefix before it
and, if present, the marker's tick value with the remaining commands. -/
def splitAtTimestamp : List VcdCommand →
    List VcdCommand × Option (Nat × List VcdCommand)
  | [] => ([], none)
  | .timestamp t :: rest => ([], some (t, rest))
  | .changeScalar i v :: rest =>
    (.changeScalar i v :: (splitAtTimestamp rest).1, (splitAtTimestamp rest).2)
  | .other :: rest =>
    (.other :: (splitAtTimestamp rest).1, (splitAtTimestamp rest).2)

/-- Apply every scalar change of a command list whose identifier is
registered to its registered cell; everything else has no effect. -/
def applyChanges : List VcdCommand → List (IdCode × CellId) →
    List PinState → List PinState
  | [], _, cells => cells
  | .changeScalar i v :: rest, pins, cells =>
    applyChanges rest pins
      (match pinsLookup pins i with
       | some c => cellStore cells c (pinStateOfValue v)
       | none => cells)
  | .timestamp _ :: rest, pins, cells => applyChanges rest pins cells
  | .other :: rest, pins, cells => applyChanges rest pins cells

/-
Encoder model (`writer.rs` / `lib.rs`).  The external `vcd::Writer` over a
byte sink is modelled as a list of emitted output lines, with identifier
codes assigned sequentially from 0 by `add_wire` (code 0 prints as the first
single-character VCD id `!`).  The byte sink itself is the infallible
in-memory buffer used by the crate's tests, so the `std::io::Error` branch of
each emission never fires and is dropped from the embedding.
-/

/-- One line emitted to the VCD output. -/
inductive OutLine
  | timescaleLine (n : Nat) (u : TimescaleUnit)
  | scopeLine (name : String)
  | varLine (width : Nat) (code : IdCode) (name : String)
  | upscopeLine
  | enddefinitionsLine
  | timestampLine (t : Nat)
  | changeLine (code : IdCode) (v : VcdValue)
deriving DecidableEq, Repr

/-- Builder state (`VcdWriterBuilder`): the emitted header lines so far, the
ordered registration list, the shared-cell heap and the next identifier code
the wrapped `vcd::Writer` will assign. -/
structure VcdWriterBuilder where
  output : List OutLine
  pins : List (IdCode × CellId)
  cells : List PinState
  next_code : IdCode
deriving DecidableEq, Repr

/-- `VcdWriterBuilder::new_with_module` (`writer.rs`): emit the fixed
`$timescale 1 ns` declaration and open the named scope. -/
def VcdWriterBuilder.new_with_module (module : String) : VcdWriterBuilder :=
  { output := [.timescaleLine 1 .NS, .scopeLine module]
    pins := []
    cells := []
    next_code := 0 }

/-- `VcdWriterBuilder::new`: `new_with_module` with scope "top" (in `lib.rs`
the body of `new` inlines the same steps with module "top"). -/
def VcdWriterBuilder.new : VcdWriterBuilder :=
  VcdWriterBuilder.new_with_module "top"

/-- `vcd::Writer::add_wire` as used by the builder: declare a width-1
variable under the current scope and hand out the next identifier code. -/
def VcdWriterBuilder.add_wire (b : VcdWriterBuilder) (reference : String) :
    IdCode × VcdWriterBuilder :=
  (b.next_code,
    { b with
      output := b.output ++ [.varLine 1 b.next_code reference]
      next_code := b.next_code + 1 })

/-- `VcdWriterBuilder::add_push_pull_pin` (`writer.rs`): declare the wire,
allocate a fresh shared cell holding `PinState::Low`, append it to the
registration list and return the handle (its cell index). -/
def VcdWriterBuilder.add_push_pull_pin (b : VcdWriterBuilder)
    (reference : String) : CellId × VcdWriterBuilder :=
  let (code, b') := b.add_wire reference
  (b'.cells.length,
    { b' with
      cells := b'.cells ++ [PinState.Low]
      pins := b'.pins ++ [(code, b'.cells.length)] })

/-- `VcdWriterBuilder::add_open_drain_pin` (`writer.rs`): declare the wire,
allocate a fresh shared cell holding `PinState::Floating`, append it to the
registration list and return the handle (its cell index). -/
def VcdWriterBuilder.add_open_drain_pin (b : VcdWriterBuilder)
    (reference : String) : CellId × VcdWriterBuilder :=
  let (code, b') := b.add_wire reference
  (b'.cells.length,
    { b' with
      cells := b'.cells ++ [PinState.Floating]
      pins := b'.pins ++ [(code, b'.cells.length)] })

/-- `VcdWriterBuilder::add_push_pull_pin` as it stands in the older `lib.rs`
variant: identical except the fresh cell holds `PinState::Floating`. -/
def Lib.add_push_pull_pin (b : VcdWriterBuilder) (reference : String) :
    CellId × VcdWriterBuilder :=
  let (code, b') := b.add_wire reference
  (b'.cells.length,
    { b' with
      cells := b'.cells ++ [PinState.Floating]
      pins := b'.pins ++ [(code, b'.cells.length)] })

/-- `VcdWriterBuilder::add_open_gain_pin` (`lib.rs`): declare the wire,
allocate a fresh shared cell holding `PinState::Floating`, append it to the
registration list and return the handle (its cell index). -/
def Lib.add_open_gain_pin (b : VcdWriterBuilder) (reference : String) :
    CellId × VcdWriterBuilder :=
  let (code, b') := b.add_wire reference
  (b'.cells.length,
    { b' with
      cells := b'.cells ++ [PinState.Floating]
      pins := b'.pins ++ [(code, b'.cells.length)] })

/-- `VcdWriterBuilder::add_module` (`writer.rs`): open a nested scope. -/
def VcdWriterBuilder.add_module (b : VcdWriterBuilder) (identifier : String) :
    VcdWriterBuilder :=
  { b with output := b.output ++ [.scopeLine identifier] }

/-- Writer state (`VcdWriter`): the output so far, the registration list and
the shared-cell heap. -/
structure VcdWriter where
  output : List OutLine
  pins : List (IdCode × CellId)
  cells : List PinState
deriving DecidableEq, Repr

/-- `VcdWriterBuilder::build`: close the scope, emit the end-of-definitions
marker and hand over the registration list; consumes the builder. -/
def VcdWriterBuilder.build (b : VcdWriterBuilder) : VcdWriter :=
  { output := b.output ++ [.upscopeLine, .enddefinitionsLine]
    pins := b.pins
    cells := b.cells }

/-- The error of a failed `VcdWriter::timestamp` call: the
`std::io::ErrorKind::InvalidInput` error built when the duration cannot be
converted (the spec's `TimestampConversionError`). -/
inductive WriterError
  | timestampConversionError
deriving DecidableEq, Repr

/-- The `TryInto<Nanoseconds<u64>>` conversion of an
`embedded_time::Generic<u64>` duration, modelled from the spec: the duration
converts exactly when its value is a whole number of nanoseconds that fits
u64 (conversion is `integer * num / den` seconds scaled to nanoseconds);
an inexact or out-of-range conversion fails.  The external `embedded_time`
crate performs this conversion. -/
def genericToNanos (g : Generic) : Option Nat :=
  if g.den ≠ 0 ∧ (g.integer * g.num * 1000000000) % g.den = 0 ∧
      (g.integer * g.num * 1000000000) / g.den < 2 ^ 64 then
    some ((g.integer * g.num * 1000000000) / g.den)
  else
    none

/-- `VcdWriter::timestamp` (`writer.rs`/`lib.rs`): convert the caller's
duration to whole nanoseconds; on failure return the conversion error before
touching the output (the writer itself is unchanged and stays usable); on
success emit the time marker. -/
def VcdWriter.timestamp (w : VcdWriter) (d : Generic) :
    Except WriterError Unit × VcdWriter :=
  match genericToNanos d with
  | none => (.error .timestampConversionError, w)
  | some n => (.ok (), { w with output := w.output ++ [.timestampLine n] })

/-- The emission loop of `VcdWriter::sample`: for each registered pin in
order, load its cell and emit the change line for its identifier. -/
def sampleLoop : List (IdCode × CellId) → List PinState → List OutLine
  | [], _ => []
  | (i, c) :: rest, cells =>
    OutLine.changeLine i (valueOfPinState (cellLoad cells c)) ::
      sampleLoop rest cells

/-- `VcdWriter::sample` (`writer.rs`/`lib.rs`). -/
def VcdWriter.sample (w : VcdWriter) : VcdWriter :=
  { w with output := w.output ++ sampleLoop w.pins w.cells }

/-- A small concrete header used by witness scenarios: one declared variable
`logic.test` with identifier code 5, timescale `1 ns`. -/
def sampleHeader : VcdHeader := ⟨some (1, .NS), [⟨["logic", "test"], 5⟩]⟩

/-
Helper lemmas.
-/

/-- The atomic usize encoding of a pin state round-trips, so the heap model
may store `PinState` values directly. -/
theorem PinState.fromUsize_toUsize (s : PinState) :
    PinState.fromUsize s.toUsize = some s := by
  cases s <;> rfl

/-- Storing to one cell does not change the load of a different cell. -/
theorem cellLoad_store_ne (cells : List PinState) {c c' : CellId}
    (s : PinState) (h : c' ≠ c) :
    cellLoad (cellStore cells c' s) c = cellLoad cells c := by
  simp [cellLoad, cellStore, List.getD_eq_getElem?_getD,
    List.getElem?_set_ne h]

/-- Loading the freshly appended cell yields its initial value. -/
theorem cellLoad_append_length (cs : List PinState) (s : PinState) :
    cellLoad (cs ++ [s]) cs.length = s := by
  simp [cellLoad, List.getD_append_right cs [s] _ cs.length (le_refl _)]

/-- A successful map lookup comes from a member of the map. -/
theorem pinsLookup_mem {m : List (IdCode × CellId)} {i : IdCode} {c : CellId}
    (h : pinsLookup m i = some c) : (i, c) ∈ m := by
  induction m with
  | nil => simp [pinsLookup] at h
  | cons p rest ih =>
    obtain ⟨k, c'⟩ := p
    by_cases hk : k = i
    · subst hk
      simp [pinsLookup] at h
      subst h
      exact List.mem_cons_self _ _
    · simp [pinsLookup, hk] at h
      exact List.mem_cons_of_mem _ (ih h)

/-- Applying a command list never changes a cell that no registration maps
to. -/
theorem applyChanges_unbound (cmds : List VcdCommand)
    (pins : List (IdCode × CellId)) (cells : List PinState) (c : CellId)
    (h : ∀ p ∈ pins, p.2 ≠ c) :
    cellLoad (applyChanges cmds pins cells) c = cellLoad cells c := by
  induction cmds generalizing cells with
  | nil => rfl
  | cons cmd rest ih =>
    cases cmd with
    | timestamp t => exact ih cells
    | other => exact ih cells
    | changeScalar i v =>
      show cellLoad (applyChanges rest pins _) c = _
      rw [ih]
      cases hl : pinsLookup pins i with
      | none => simp [hl]
      | some c' =>
        simp only [hl]
        exact cellLoad_store_ne cells _ (h _ (pinsLookup_mem hl))

/-- The scan loop of `next`, characterised by the split of the command
stream at its first timestamp marker. -/
theorem nextLoop_eq (cmds : List VcdCommand) (scale : Generic)
    (pins : List (IdCode × CellId)) (cells : List PinState) :
    nextLoop cmds scale pins cells =
      ((splitAtTimestamp cmds).2.map
          (fun p => ⟨scale.integer * p.1, scale.num, scale.den⟩),
        (splitAtTimestamp cmds).2.elim [] Prod.snd,
        applyChanges (splitAtTimestamp cmds).1 pins cells) := by
  induction cmds generalizing cells with
  | nil => rfl
  | cons cmd rest ih =>
    cases cmd with
    | timestamp t => rfl
    | changeScalar i v =>
      show nextLoop rest scale pins _ = _
      rw [ih]
      rfl
    | other =>
      show nextLoop rest scale pins cells = _
      rw [ih]
      rfl

/-- The sample emission loop is the map over the registration list. -/
theorem sampleLoop_eq_map (pins : List (IdCode × CellId))
    (cells : List PinState) :
    sampleLoop pins cells =
      pins.map
        (fun p => OutLine.changeLine p.1 (valueOfPinState (cellLoad cells p.2))) := by
  induction pins with
  | nil => rfl
  | cons p rest ih =>
    obtain ⟨i, c⟩ := p
    simp [sampleLoop, ih]

/-- The cell heap after one `next` step is the heap with the changes of the
scanned prefix applied. -/
theorem next_cells_eq (r : VcdReader) :
    (VcdReader.next r).2.cells =
      applyChanges (splitAtTimestamp r.commands).1 r.pins r.cells := by
  unfold VcdReader.next
  rw [nextLoop_eq]

/-
Claim theorems.
-/

/-- C4: the PinState-to-VCD-value mapping and its inverse round-trip exactly
for all three PinState values (High to V1 to High, Low to V0 to Low,
Floating to Z to Floating); decoding the VCD value X yields Floating, and no
PinState ever encodes to X. -/
theorem pinstate_vcd_value_roundtrip :
    (∀ s : PinState, pinStateOfValue (valueOfPinState s) = s) ∧
    valueOfPinState .High = .V1 ∧
    valueOfPinState .Low = .V0 ∧
    valueOfPinState .Floating = .Z ∧
    pinStateOfValue .X = .Floating ∧
    ∀ s : PinState, valueOfPinState s ≠ .X := by
  refine ⟨fun s => ?_, rfl, rfl, rfl, rfl, fun s => ?_⟩ <;> cases s <;> decide

/-- C5: the output pin variants obey their drive tables on any cell.
Push-pull: after drive-high, is-high and is-set-high hold; after drive-low,
is-low and is-set-low hold.  Open-drain and open-gain: drive-high stores Low,
so is-high is false and is-low is true; drive-low stores Floating, so is-high
and is-low are both false. -/
theorem pin_drive_tables (s : PinState) :
    (PushPullPin.try_is_high (PushPullPin.try_set_high s) = true ∧
      PushPullPin.try_is_set_high (PushPullPin.try_set_high s) = true) ∧
    (PushPullPin.try_is_low (PushPullPin.try_set_low s) = true ∧
      PushPullPin.try_is_set_low (PushPullPin.try_set_low s) = true) ∧
    (OpenDrainPin.try_set_high s = PinState.Low ∧
      OpenDrainPin.try_is_high (OpenDrainPin.try_set_high s) = false ∧
      OpenDrainPin.try_is_low (OpenDrainPin.try_set_high s) = true) ∧
    (OpenDrainPin.try_set_low s = PinState.Floating ∧
      OpenDrainPin.try_is_high (OpenDrainPin.try_set_low s) = false ∧
      OpenDrainPin.try_is_low (OpenDrainPin.try_set_low s) = false) ∧
    (OpenGainPin.try_set_high s = PinState.Low ∧
      OpenGainPin.try_is_high (OpenGainPin.try_set_high s) = false ∧
      OpenGainPin.try_is_low (OpenGainPin.try_set_high s) = true) ∧
    (OpenGainPin.try_set_low s = PinState.Floating ∧
      OpenGainPin.try_is_high (OpenGainPin.try_set_low s) = false ∧
      OpenGainPin.try_is_low (OpenGainPin.try_set_low s) = false) := by
  cases s <;> decide

/-- C6: every `sample()` call emits exactly one scalar change line per
registered pin, in registration order, carrying the value loaded from that
pin's cell at call time; it reads nothing but the current registration list
and heap, so the emission is the same whether or not any value changed since
a previous sample. -/
theorem sample_emits_every_pin (w : VcdWriter) :
    (VcdWriter.sample w).output =
      w.output ++
        w.pins.map
          (fun p => OutLine.changeLine p.1 (valueOfPinState (cellLoad w.cells p.2))) ∧
    (VcdWriter.sample w).output.length = w.output.length + w.pins.length ∧
    (VcdWriter.sample w).pins = w.pins ∧
    (VcdWriter.sample w).cells = w.cells := by
  refine ⟨?_, ?_, rfl, rfl⟩ <;> simp [VcdWriter.sample, sampleLoop_eq_map]

/-- C7: `timestamp(d)` fails with the conversion error exactly when the
caller-supplied duration does not convert to whole nanoseconds; on failure no
time marker is emitted and the writer is returned unchanged (so later
`timestamp` and `sample` calls behave as on the original writer); on success
the marker with the converted nanosecond value is emitted. -/
theorem timestamp_conversion (w : VcdWriter) (d : Generic) :
    (genericToNanos d = none →
      VcdWriter.timestamp w d = (.error .timestampConversionError, w)) ∧
    (∀ n : Nat, genericToNanos d = some n →
      VcdWriter.timestamp w d =
        (.ok (), { w with output := w.output ++ [.timestampLine n] })) := by
  constructor
  · intro h
    simp [VcdWriter.timestamp, h]
  · intro n h
    simp [VcdWriter.timestamp, h]

/-- C7 witness: a duration of 1/3 second is not a whole number of
nanoseconds, so the call fails and leaves the writer untouched; a duration of
500 ns converts and emits the marker `#500`. -/
theorem timestamp_conversion_witness :
    VcdWriter.timestamp ⟨[], [], []⟩ ⟨1, 1, 3⟩ =
      (.error .timestampConversionError, ⟨[], [], []⟩) ∧
    VcdWriter.timestamp ⟨[], [], []⟩ ⟨500, 1, 1000000000⟩ =
      (.ok (), ⟨[.timestampLine 500], [], []⟩) :=
  ⟨(timestamp_conversion ⟨[], [], []⟩ ⟨1, 1, 3⟩).1 (by decide),
    (timestamp_conversion ⟨[], [], []⟩ ⟨500, 1, 1000000000⟩).2 500 (by decide)⟩

/-- C8: `get_pin` on an undeclared path returns an absent result and leaves
the reader untouched (no fatal error is possible: the return type carries
none); on a declared path it returns a handle to a freshly allocated cell
whose initial state is Floating and records the identifier-to-cell binding
used by the decode loop. -/
theorem get_pin_lookup (r : VcdReader) (path : List String) :
    (r.header.find_var path = none → VcdReader.get_pin r path = (none, r)) ∧
    (∀ v : VcdVar, r.header.find_var path = some v →
      ∃ p : InputPin,
        (VcdReader.get_pin r path).1 = some p ∧
        p.cell = r.cells.length ∧
        (VcdReader.get_pin r path).2.cells = r.cells ++ [PinState.Floating] ∧
        cellLoad (VcdReader.get_pin r path).2.cells p.cell = PinState.Floating ∧
        pinsLookup (VcdReader.get_pin r path).2.pins v.code = some p.cell ∧
        (VcdReader.get_pin r path).2.commands = r.commands ∧
        (VcdReader.get_pin r path).2.header = r.header) := by
  constructor
  · intro h
    simp [VcdReader.get_pin, h]
  · intro v h
    refine ⟨⟨r.cells.length⟩, ?_, rfl, ?_, ?_, ?_, ?_, ?_⟩ <;>
      simp [VcdReader.get_pin, h, pinsInsert, pinsLookup, cellLoad_append_length]

/-- C8 witness: on the sample header, an undeclared path misses and a
declared path yields the handle to a fresh Floating cell with the binding
recorded for identifier code 5. -/
theorem get_pin_lookup_witness :
    VcdReader.get_pin ⟨[], ⟨1, 1, 1000000000⟩, sampleHeader, [], []⟩ ["nope"] =
      (none, ⟨[], ⟨1, 1, 1000000000⟩, sampleHeader, [], []⟩) ∧
    ∃ p : InputPin,
      (VcdReader.get_pin ⟨[], ⟨1, 1, 1000000000⟩, sampleHeader, [], []⟩
          ["logic", "test"]).1 = some p ∧
      p.cell = 0 ∧
      (VcdReader.get_pin ⟨[], ⟨1, 1, 1000000000⟩, sampleHeader, [], []⟩
          ["logic", "test"]).2.cells = [PinState.Floating] ∧
      cellLoad (VcdReader.get_pin ⟨[], ⟨1, 1, 1000000000⟩, sampleHeader, [], []⟩
          ["logic", "test"]).2.cells p.cell = PinState.Floating ∧
      pinsLookup (VcdReader.get_pin ⟨[], ⟨1, 1, 1000000000⟩, sampleHeader, [], []⟩
          ["logic", "test"]).2.pins 5 = some p.cell ∧
      (VcdReader.get_pin ⟨[], ⟨1, 1, 1000000000⟩, sampleHeader, [], []⟩
          ["logic", "test"]).2.commands = [] ∧
      (VcdReader.get_pin ⟨[], ⟨1, 1, 1000000000⟩, sampleHeader, [], []⟩
          ["logic", "test"]).2.header = sampleHeader :=
  ⟨(get_pin_lookup ⟨[], ⟨1, 1, 1000000000⟩, sampleHeader, [], []⟩ ["nope"]).1
      (by decide),
    (get_pin_lookup ⟨[], ⟨1, 1, 1000000000⟩, sampleHeader, [], []⟩
        ["logic", "test"]).2 ⟨["logic", "test"], 5⟩ (by decide)⟩

/-- C1: one `next` step applies exactly the registered scalar changes of the
prefix before the first timestamp marker (unmapped identifiers and other
tokens have no effect), then yields that timestamp scaled by the resolved
factor with the stream positioned after the marker; so the yielded timestamp
describes the instant before the changes the following step will apply.  On
exhaustion it applies the remaining registered changes and yields none.
Cells no registration maps to are never written. -/
theorem next_applies_changes_before_timestamp (r : VcdReader) :
    (VcdReader.next r =
      match splitAtTimestamp r.commands with
      | (pre, some (t, rest)) =>
        (some ⟨r.scale.integer * t, r.scale.num, r.scale.den⟩,
          { r with commands := rest, cells := applyChanges pre r.pins r.cells })
      | (pre, none) =>
        (none,
          { r with commands := [], cells := applyChanges pre r.pins r.cells })) ∧
    (∀ c : CellId, (∀ p ∈ r.pins, p.2 ≠ c) →
      cellLoad (VcdReader.next r).2.cells c = cellLoad r.cells c) := by
  constructor
  · unfold VcdReader.next
    rw [nextLoop_eq]
    rcases h : splitAtTimestamp r.commands with ⟨pre, o⟩
    rcases o with _ | ⟨t, rest⟩ <;> simp
  · intro c hc
    rw [next_cells_eq]
    exact applyChanges_unbound _ _ _ _ hc

/-- C1 witness: with identifier 5 registered to cell 0 and identifier 9
unregistered, the first step applies V1 to cell 0, skips the change for 9 and
the unknown token, yields 2 * 7 scaled ticks, and leaves the post-marker
change pending; the untouched cell 1 keeps its value. -/
theorem next_applies_changes_before_timestamp_witness :
    VcdReader.next
        ⟨[.changeScalar 5 .V1, .other, .changeScalar 9 .V0, .timestamp 7,
            .changeScalar 5 .V0],
          ⟨2, 1, 1000⟩, sampleHeader, [(5, 0)],
          [PinState.Floating, PinState.Floating]⟩ =
      (some ⟨14, 1, 1000⟩,
        ⟨[.changeScalar 5 .V0], ⟨2, 1, 1000⟩, sampleHeader, [(5, 0)],
          [PinState.High, PinState.Floating]⟩) ∧
    cellLoad
        (VcdReader.next
          ⟨[.changeScalar 5 .V1, .other, .changeScalar 9 .V0, .timestamp 7,
              .changeScalar 5 .V0],
            ⟨2, 1, 1000⟩, sampleHeader, [(5, 0)],
            [PinState.Floating, PinState.Floating]⟩).2.cells 1 =
      PinState.Floating := by
  have h := next_applies_changes_before_timestamp
    ⟨[.changeScalar 5 .V1, .other, .changeScalar 9 .V0, .timestamp 7,
        .changeScalar 5 .V0],
      ⟨2, 1, 1000⟩, sampleHeader, [(5, 0)],
      [PinState.Floating, PinState.Floating]⟩
  refine ⟨?_, h.2 1 (by decide)⟩
  rw [h.1]
  rfl

/-- C9 counterexample: the `as u32` cast in
`Fraction::new(1, unit.divisor() as u32)` truncates the divisor modulo 2^32,
so with header `$timescale 1 ps` the resolved denominator is 3567587328
rather than the unit's divisor 10^12, and with `$timescale 1 fs` it is
2764472320 rather than 10^15: the claim's "denominator equal to the unit's
divisor" is false for these units. -/
theorem timescale_ps_truncation_counterexample :
    timescale_to_duration ⟨some (1, .PS), []⟩ = some ⟨1, 1, 3567587328⟩ ∧
    TimescaleUnit.divisor .PS = 1000000000000 ∧
    (3567587328 : Nat) ≠ 1000000000000 ∧
    timescale_to_duration ⟨some (1, .FS), []⟩ = some ⟨1, 1, 2764472320⟩ ∧
    TimescaleUnit.divisor .FS = 1000000000000000 ∧
    (2764472320 : Nat) ≠ 1000000000000000 := by
  refine ⟨rfl, rfl, by norm_num, rfl, rfl, by norm_num⟩

/-- C9 amended: the resolved timescale factor has numerator the header's
scale integer and denominator the unit's divisor truncated to u32 (divisor
mod 2^32) — equal to the divisor for the s, ms, us and ns units, whose
divisors fit u32; each raw tick count is multiplied by the scale integer and
carries the scaling fraction; with `$timescale 1 ns` the factor denotes
exactly one nanosecond per tick and body tick 500 yields a duration exactly
500 times that factor, all in exact rational arithmetic. -/
theorem timescale_resolution :
    (∀ (h : VcdHeader) (sc : Nat) (u : TimescaleUnit),
      h.timescale = some (sc, u) →
      timescale_to_duration h = some ⟨sc, 1, u.divisor % 2 ^ 32⟩) ∧
    (∀ u : TimescaleUnit, u = .S ∨ u = .MS ∨ u = .US ∨ u = .NS →
      u.divisor % 2 ^ 32 = u.divisor) ∧
    timescale_to_duration ⟨some (1, .NS), []⟩ = some ⟨1, 1, 1000000000⟩ ∧
    Generic.toSecondsRat ⟨1, 1, 1000000000⟩ = 1 / 1000000000 ∧
    (∀ (sc : Generic) (t : Nat) (hd : VcdHeader)
      (pins : List (IdCode × CellId)) (cells : List PinState)
      (rest : List VcdCommand),
      (VcdReader.next ⟨.timestamp t :: rest, sc, hd, pins, cells⟩).1 =
        some ⟨sc.integer * t, sc.num, sc.den⟩) ∧
    (VcdReader.next
        ⟨[.timestamp 500], ⟨1, 1, 1000000000⟩, ⟨some (1, .NS), []⟩, [],
          []⟩).1 = some ⟨500, 1, 1000000000⟩ ∧
    Generic.toSecondsRat ⟨500, 1, 1000000000⟩ =
      500 * Generic.toSecondsRat ⟨1, 1, 1000000000⟩ := by
  refine ⟨?_, ?_, rfl, by norm_num [Generic.toSecondsRat], ?_, rfl,
    by norm_num [Generic.toSecondsRat]⟩
  · intro h sc u ht
    simp [timescale_to_duration, ht]
  · intro u hu
    rcases hu with h | h | h | h <;> subst h <;> decide
  · intro sc t hd pins cells rest
    rfl

/-- C9 witness: a header declaring `25 ms` resolves to the factor 25/1000,
the ms divisor survives the u32 truncation, and tick 4 yields 25 * 4 scaled
ticks. -/
theorem timescale_resolution_witness :
    timescale_to_duration ⟨some (25, .MS), []⟩ = some ⟨25, 1, 1000⟩ ∧
    TimescaleUnit.divisor .MS % 2 ^ 32 = TimescaleUnit.divisor .MS ∧
    (VcdReader.next
        ⟨[.timestamp 4], ⟨25, 1, 1000⟩, ⟨some (25, .MS), []⟩, [], []⟩).1 =
      some ⟨100, 1, 1000⟩ :=
  ⟨timescale_resolution.1 ⟨some (25, .MS), []⟩ 25 .MS rfl,
    timescale_resolution.2.1 .MS (Or.inr (Or.inl rfl)),
    timescale_resolution.2.2.2.2.1 ⟨25, 1, 1000⟩ 4 ⟨some (25, .MS), []⟩ []
      [] []⟩

/-- C2 counterexample: constructing a reader from a successfully parsed
header that declares no timescale does not return a `MissingTimescale` (or
any) error to the caller: the `unwrap()` of the absent timescale panics, an
abnormal termination.  The claim "fails with a MissingTimescale error
returned to the caller ... does not terminate abnormally" is false on this
input. -/
theorem new_missing_timescale_counterexample :
    VcdReader.new (Except.ok ⟨none, []⟩) [] = NewResult.panicked ∧
    NewResult.isErrorReturn (VcdReader.new (Except.ok ⟨none, []⟩) []) =
      false := by
  exact ⟨rfl, rfl⟩

/-- C2 amended: constructing a VCD reader from a byte source whose header
parses but contains no timescale declaration never succeeds and never
returns an error value: the construction terminates abnormally (it panics on
the `unwrap` of the missing timescale). -/
theorem new_missing_timescale_panics (h : VcdHeader)
    (cmds : List VcdCommand) (hts : h.timescale = none) :
    VcdReader.new (Except.ok h) cmds = NewResult.panicked := by
  simp [VcdReader.new, timescale_to_duration, hts]

/-- C2 witness: a concrete timescale-free header with one variable and a
pending body command panics at construction. -/
theorem new_missing_timescale_panics_witness :
    VcdReader.new (Except.ok ⟨none, [⟨["a"], 1⟩]⟩) [VcdCommand.timestamp 3] =
      NewResult.panicked :=
  new_missing_timescale_panics ⟨none, [⟨["a"], 1⟩]⟩ [VcdCommand.timestamp 3] rfl

/-- C3 counterexample: in the `lib.rs` variant, `add_push_pull_pin` creates
its shared cell holding Floating, not Low, and a `sample()` taken before any
drive emits `Z` for that pin, not `0`. -/
theorem lib_push_pull_initial_counterexample :
    cellLoad (Lib.add_push_pull_pin VcdWriterBuilder.new "test").2.cells
        (Lib.add_push_pull_pin VcdWriterBuilder.new "test").1 =
      PinState.Floating ∧
    PinState.Floating ≠ PinState.Low ∧
    (VcdWriter.sample
        (VcdWriterBuilder.build
          (Lib.add_push_pull_pin VcdWriterBuilder.new "test").2)).output.getLast? =
      some (OutLine.changeLine 0 .Z) ∧
    OutLine.changeLine 0 VcdValue.Z ≠ OutLine.changeLine 0 VcdValue.V0 := by
  refine ⟨rfl, by decide, rfl, by decide⟩

/-- C3 amended: encoder-bound cells carry the variant's explicit initial
state: `writer.rs` `add_push_pull_pin` creates its cell holding Low (a
sample before any drive emits `0`), while the older `lib.rs`
`add_push_pull_pin` creates it holding Floating (such a sample emits `Z`);
`add_open_drain_pin` and `add_open_gain_pin` create their cells holding
Floating, so a sample before any drive emits `Z` for them. -/
theorem encoder_pin_initial_states (b : VcdWriterBuilder) (name : String) :
    cellLoad (VcdWriterBuilder.add_push_pull_pin b name).2.cells
        (VcdWriterBuilder.add_push_pull_pin b name).1 = PinState.Low ∧
    cellLoad (VcdWriterBuilder.add_open_drain_pin b name).2.cells
        (VcdWriterBuilder.add_open_drain_pin b name).1 = PinState.Floating ∧
    cellLoad (Lib.add_push_pull_pin b name).2.cells
        (Lib.add_push_pull_pin b name).1 = PinState.Floating ∧
    cellLoad (Lib.add_open_gain_pin b name).2.cells
        (Lib.add_open_gain_pin b name).1 = PinState.Floating ∧
    (VcdWriter.sample
        (VcdWriterBuilder.build
          (VcdWriterBuilder.add_push_pull_pin
            (VcdWriterBuilder.new_with_module "logic") "test").2)).output =
      [.timescaleLine 1 .NS, .scopeLine "logic", .varLine 1 0 "test",
        .upscopeLine, .enddefinitionsLine, .changeLine 0 .V0] ∧
    (VcdWriter.sample
        (VcdWriterBuilder.build
          (VcdWriterBuilder.add_open_drain_pin
            (VcdWriterBuilder.new_with_module "logic") "test").2)).output =
      [.timescaleLine 1 .NS, .scopeLine "logic", .varLine 1 0 "test",
        .upscopeLine, .enddefinitionsLine, .changeLine 0 .Z] ∧
    (VcdWriter.sample
        (VcdWriterBuilder.build
          (Lib.add_open_gain_pin VcdWriterBuilder.new "test").2)).output =
      [.timescaleLine 1 .NS, .scopeLine "top", .varLine 1 0 "test",
        .upscopeLine, .enddefinitionsLine, .changeLine 0 .Z] := by
  refine ⟨?_, ?_, ?_, ?_, rfl, rfl, rfl⟩ <;>
    simp [VcdWriterBuilder.add_push_pull_pin,
      VcdWriterBuilder.add_open_drain_pin, Lib.add_push_pull_pin,
      Lib.add_open_gain_pin, VcdWriterBuilder.add_wire, cellLoad_append_length]

/-- C10: calling `get_pin` twice for the same declared path allocates a
second, distinct Floating cell and overwrites the identifier-to-cell binding
in the pin map; decoding after the second call never writes the first
handle's cell (it stays Floating), while a decoded change for the identifier
reaches the second handle's cell; the two handles share no cell. -/
theorem get_pin_rebinds (h : VcdHeader) (path : List String) (v : VcdVar)
    (hv : h.find_var path = some v) (cmds : List VcdCommand) (sc : Generic)
    (val : VcdValue) (t : Nat) :
    let r2 := (VcdReader.get_pin
      (VcdReader.get_pin ⟨cmds, sc, h, [], []⟩ path).2 path).2
    (VcdReader.get_pin ⟨cmds, sc, h, [], []⟩ path).1 = some ⟨0⟩ ∧
    (VcdReader.get_pin
        (VcdReader.get_pin ⟨cmds, sc, h, [], []⟩ path).2 path).1 = some ⟨1⟩ ∧
    InputPin.mk 0 ≠ InputPin.mk 1 ∧
    r2.pins = [(v.code, 1)] ∧
    r2.cells = [PinState.Floating, PinState.Floating] ∧
    (∀ body : List VcdCommand,
      cellLoad (VcdReader.next { r2 with commands := body }).2.cells 0 =
        PinState.Floating) ∧
    cellLoad (VcdReader.next
        { r2 with
          commands := [.changeScalar v.code val, .timestamp t] }).2.cells 1 =
      pinStateOfValue val := by
  intro r2
  have hr2 : r2 =
      ⟨cmds, sc, h, [(v.code, 1)],
        [PinState.Floating, PinState.Floating]⟩ := by
    simp [r2, VcdReader.get_pin, hv, pinsInsert]
  refine ⟨?_, ?_, by decide, ?_, ?_, ?_, ?_⟩
  · simp [VcdReader.get_pin, hv]
  · simp [VcdReader.get_pin, hv]
  · rw [hr2]
  · rw [hr2]
  · intro body
    rw [hr2, next_cells_eq]
    refine (applyChanges_unbound _ _ _ _ ?_).trans rfl
    intro p hp
    simp only [List.mem_singleton] at hp
    subst hp
    exact Nat.one_ne_zero
  · rw [hr2, next_cells_eq]
    simp [splitAtTimestamp, applyChanges, pinsLookup, cellStore, cellLoad]

/-- C10 witness: on the sample header, registering `logic.test` twice yields
handles on cells 0 and 1, the map binds identifier 5 to cell 1, decoding a
pending change for identifier 5 leaves cell 0 Floating and drives cell 1 to
the decoded value. -/
theorem get_pin_rebinds_witness :
    (VcdReader.get_pin ⟨[], ⟨1, 1, 1000000000⟩, sampleHeader, [], []⟩
        ["logic", "test"]).1 = some ⟨0⟩ ∧
    (VcdReader.get_pin
        (VcdReader.get_pin ⟨[], ⟨1, 1, 1000000000⟩, sampleHeader, [], []⟩
          ["logic", "test"]).2 ["logic", "test"]).1 = some ⟨1⟩ ∧
    (VcdReader.get_pin
        (VcdReader.get_pin ⟨[], ⟨1, 1, 1000000000⟩, sampleHeader, [], []⟩
          ["logic", "test"]).2 ["logic", "test"]).2.pins = [(5, 1)] ∧
    cellLoad
        (VcdReader.next
          { (VcdReader.get_pin
              (VcdReader.get_pin ⟨[], ⟨1, 1, 1000000000⟩, sampleHeader, [], []⟩
                ["logic", "test"]).2 ["logic", "test"]).2 with
            commands := [.changeScalar 5 .V0, .other] }).2.cells 0 =
      PinState.Floating ∧
    cellLoad
        (VcdReader.next
          { (VcdReader.get_pin
              (VcdReader.get_pin ⟨[], ⟨1, 1, 1000000000⟩, sampleHeader, [], []⟩
                ["logic", "test"]).2 ["logic", "test"]).2 with
            commands := [.changeScalar 5 .V1, .timestamp 9] }).2.cells 1 =
      pinStateOfValue .V1 := by
  have H := get_pin_rebinds sampleHeader ["logic", "test"]
    ⟨["logic", "test"], 5⟩ rfl [] ⟨1, 1, 1000000000⟩ .V1 9
  exact ⟨H.1, H.2.1, H.2.2.2.1, H.2.2.2.2.2.1 [.changeScalar 5 .V0, .other],
    H.2.2.2.2.2.2⟩
